import Mathlib

/-!
Verification of the Titon controller device-control and automation engine
(custom_components/titon_controller/webui_runtime/simple_webui.py).

The Python source is shallowly embedded: pure logic becomes Lean functions;
the serial link is modelled by an oracle giving the outcome of each attempt
or of each command in a multi-step sequence; Python floats are modelled as
exact rationals; wall-clock times are rationals (seconds) or (hour, minute)
pairs; the mutable device-state dict becomes an explicit DeviceState record
threaded through the operations.
-/

namespace Titon

/-! ## Command protocol: send_command (simple_webui.py lines 406-445)

Each attempt of send_command either raises an I/O exception, reads no
response at all, or reads a (decoded) response string.  The oracle
env : Nat -> AttemptOutcome gives the outcome of attempt number retry
(retry = 0 is the initial attempt).  The source recurses with
retry + 1 while retry < 2; the embedding carries remaining = 2 - retry
as the structurally decreasing argument, so that remaining = 0 exactly
when retry < 2 is false. -/

inductive AttemptOutcome where
  | exn : AttemptOutcome
  | silence : AttemptOutcome
  | resp : String → AttemptOutcome
deriving DecidableEq

/-- One call of send_command at depth retry, with remaining = 2 - retry,
so the source's retry < 2 test is the test remaining > 0.  Mirrors the
source: an exception returns False; a response whose first 3 characters
exist and differ from the address retries while retry < 2; no response
retries while retry < 2; every other path (including a mismatch or
silence with the retry budget exhausted) falls through to the final
success return (True). -/
def send_command_go (env : Nat → AttemptOutcome) (addr : String) :
    Nat → Nat → Bool
  | retry, 0 =>
    match env retry with
    | AttemptOutcome.exn => false
    | AttemptOutcome.resp _ => true
    | AttemptOutcome.silence => true
  | retry, r + 1 =>
    match env retry with
    | AttemptOutcome.exn => false
    | AttemptOutcome.resp s =>
      if 3 ≤ s.length && s.take 3 != addr then
        send_command_go env addr (retry + 1) r
      else true
    | AttemptOutcome.silence => send_command_go env addr (retry + 1) r

/-- send_command(addr, val) with the default retry = 0. -/
def send_command (env : Nat → AttemptOutcome) (addr : String) : Bool :=
  send_command_go env addr 0 2

/-! ## Frame encoding (simple_webui.py line 414) -/

/-- Python format spec "%05d" for a non-negative integer: the decimal
digits, left-padded with zeros to a minimum width of 5. -/
def format05 (v : Nat) : String :=
  if v < 100000 then
    String.mk [Nat.digitChar (v / 10000 % 10), Nat.digitChar (v / 1000 % 10),
      Nat.digitChar (v / 100 % 10), Nat.digitChar (v / 10 % 10),
      Nat.digitChar (v % 10)]
  else Nat.repr v

/-- The write frame built by send_command. -/
def encode_write_frame (addr : String) (v : Nat) : String :=
  addr ++ "0+" ++ format05 v ++ "\r\n"

/-! ## Device state machine (simple_webui.py lines 177-215, 448-523, 959-972)

The state dict fields touched by level transitions, turn-off and the
boost toggle.  Timestamps are abstracted to natural numbers; last_command
records the (register, value) pair stored by a successful send_command. -/

structure SerialStep where
  addr : String
  val : Nat
  label : String
deriving DecidableEq

structure DeviceState where
  current_level : Option Nat
  boost_active : Bool
  boost_inhibit : Bool
  level_start_time : Option Nat
  last_command : Option (String × Nat)
deriving DecidableEq

/-- The initial state dict: no level, no boost, no inhibit. -/
def init_state : DeviceState :=
  { current_level := none, boost_active := false, boost_inhibit := false,
    level_start_time := none, last_command := none }

structure OpResult where
  ok : Bool
  st : DeviceState
  issued : List SerialStep
deriving DecidableEq

/-- The per-level multi-step strategies of apply_level_strategy. -/
def strategies (level : Nat) : Option (List SerialStep) :=
  if level = 1 then some
    [⟨"154", 0, "Speed 4 OFF"⟩, ⟨"152", 0, "Speed 3 OFF"⟩,
     ⟨"151", 0, "Speed 1 OFF"⟩, ⟨"326", 1, "Boost Inhibit ON (block Speed 3/4)"⟩,
     ⟨"151", 1, "Speed 1 ON"⟩]
  else if level = 2 then some
    [⟨"154", 0, "Speed 4 OFF"⟩, ⟨"152", 0, "Speed 3 OFF"⟩,
     ⟨"151", 0, "Speed 1 OFF"⟩, ⟨"326", 1, "Boost Inhibit ON (hold default Speed 2)"⟩]
  else if level = 3 then some
    [⟨"326", 0, "Boost Inhibit OFF"⟩, ⟨"154", 0, "Speed 4 OFF"⟩,
     ⟨"151", 0, "Speed 1 OFF"⟩, ⟨"152", 1, "Speed 3 ON"⟩]
  else if level = 4 then some
    [⟨"326", 0, "Boost Inhibit OFF"⟩, ⟨"152", 0, "Speed 3 OFF"⟩,
     ⟨"151", 0, "Speed 1 OFF"⟩, ⟨"154", 1, "Speed 4 ON"⟩]
  else none

/-- The 4-step turn-off sequence of turn_off_all_levels. -/
def off_steps : List SerialStep :=
  [⟨"151", 0, "Speed 1 OFF"⟩, ⟨"152", 0, "Speed 3 OFF"⟩,
   ⟨"154", 0, "Speed 4 OFF"⟩, ⟨"326", 0, "Boost Inhibit OFF"⟩]

/-- Issue the steps in order through send_command, stopping at the first
failure.  sendOk k is the success of the k-th send in the sequence; a
successful send records last_command on the state (as send_command does),
a failed send leaves the state as it was and ends the loop.  The issued
list collects the commands actually handed to send_command. -/
def run_steps (sendOk : Nat → Bool) :
    List SerialStep → Nat → DeviceState → OpResult
  | [], _, st => ⟨true, st, []⟩
  | s :: rest, k, st =>
    if sendOk k then
      let r := run_steps sendOk rest (k + 1)
        { st with last_command := some (s.addr, s.val) }
      ⟨r.ok, r.st, s :: r.issued⟩
    else ⟨false, st, [s]⟩

/-- apply_level_strategy(level): look up the strategy, run its steps, and
only on full success update level / boost_active / boost_inhibit /
level_start_time; on a failed step return False with those fields as
they were before the call. -/
def apply_level_strategy (sendOk : Nat → Bool) (level : Nat) (now : Nat)
    (st : DeviceState) : OpResult :=
  match strategies level with
  | none => ⟨false, st, []⟩
  | some steps =>
    let r := run_steps sendOk steps 0 st
    if r.ok then
      ⟨true,
       { r.st with
         boost_inhibit := level == 1 || level == 2
         boost_active := level == 4
         current_level := some level
         level_start_time := some now }, r.issued⟩
    else ⟨false, r.st, r.issued⟩

/-- turn_off_all_levels: run the off sequence; only on full success clear
level, boost_active, boost_inhibit and level_start_time. -/
def turn_off_all_levels (sendOk : Nat → Bool) (st : DeviceState) : OpResult :=
  let r := run_steps sendOk off_steps 0 st
  if r.ok then
    ⟨true,
     { r.st with
       current_level := none
       boost_active := false
       boost_inhibit := false
       level_start_time := none }, r.issued⟩
  else ⟨false, r.st, r.issued⟩

/-- The boost toggle of the /api/boost route: flip boost_active with a
single register-154 write; on success set boost_active to the new value,
and only when turning boost on also set current_level to 4 and refresh
level_start_time.  boost_inhibit is not touched. -/
def api_toggle_boost (sendOk : Bool) (now : Nat) (st : DeviceState) :
    Bool × DeviceState :=
  let new_state := !st.boost_active
  if sendOk then
    (true,
     { st with
       last_command := some ("154", if new_state then 1 else 0)
       boost_active := new_state
       current_level := if new_state then some 4 else st.current_level
       level_start_time := if new_state then some now else st.level_start_time })
  else (false, st)

/-- The spec's state invariant (section 3): current_level in
{None,1,2,3,4}, boost_inhibit only at levels 1-2, boost_active only at
level 4. -/
def level_okB (l : Option Nat) : Bool :=
  l == none || l == some 1 || l == some 2 || l == some 3 || l == some 4

def InvB (st : DeviceState) : Bool :=
  level_okB st.current_level
    && (!st.boost_inhibit || (st.current_level == some 1 || st.current_level == some 2))
    && (!st.boost_active || st.current_level == some 4)

/-- The invariant without its boost_inhibit clause. -/
def WInvB (st : DeviceState) : Bool :=
  level_okB st.current_level
    && (!st.boost_active || st.current_level == some 4)

/-! ## Night-quiet guard (simple_webui.py lines 271-301)

Wall-clock times of day are (hour, minute) pairs, compared
lexicographically as Python datetime.time compares.  parse_time mirrors
value.split with separator colon followed by int() and the
datetime.time constructor (which rejects hours over 23 and minutes over
59); a parse failure (a Python exception) is None. -/

def str_to_nat (l : List Char) : Option Nat :=
  if l.isEmpty then none
  else if l.all Char.isDigit then
    some (l.foldl (fun acc c => 10 * acc + (c.toNat - 48)) 0)
  else none

def parse_time (s : String) : Option (Nat × Nat) :=
  match (s.toList.splitOn ':').map str_to_nat with
  | [some hh, some mm] => if hh ≤ 23 ∧ mm ≤ 59 then some (hh, mm) else none
  | _ => none

def time_le (a b : Nat × Nat) : Bool :=
  decide (a.1 < b.1) || (decide (a.1 = b.1) && decide (a.2 ≤ b.2))

def time_lt (a b : Nat × Nat) : Bool :=
  decide (a.1 < b.1) || (decide (a.1 = b.1) && decide (a.2 < b.2))

/-- is_within_quiet_hours: False when night quiet is disabled (checked
before any parsing); otherwise membership of now in [start, end), with
the overnight branch when start > end.  None models the exception a
malformed configured time raises. -/
def is_within_quiet_hours (enabled : Bool) (startS endS : String)
    (now : Nat × Nat) : Option Bool :=
  if !enabled then some false
  else
    match parse_time startS, parse_time endS with
    | some s, some e =>
      some (if time_le s e then time_le s now && time_lt now e
            else time_le s now || time_lt now e)
    | _, _ => none

/-- enforce_night_quiet: inside the quiet window cap the requested level
at max_level and report whether capping changed it; outside pass the
level through uncapped. -/
def enforce_night_quiet (enabled : Bool) (startS endS : String)
    (maxLevel level : Nat) (now : Nat × Nat) : Option (Nat × Bool) :=
  match is_within_quiet_hours enabled startS endS now with
  | none => none
  | some true => some (min level maxLevel, min level maxLevel != level)
  | some false => some (level, false)

/-! ## Manual-override timer (simple_webui.py lines 304-321)

Timestamps are rationals (seconds, as time.time()).  The stored expiry
is an optional timestamp; Python truthiness makes an expiry of exactly 0
fall through both branches. -/

/-- schedule_manual_override: expiry = now + max(1, override_minutes) * 60. -/
def schedule_manual_override (override_minutes : Int) (now : ℚ) : ℚ :=
  now + (max 1 override_minutes : Int) * 60

/-- manual_override_active, returning (active, remaining seconds, stored
expiry after the call).  A stored future expiry is active with its
remaining time; a stored past (nonzero) expiry is cleared and inactive;
anything else is inactive and leaves the store alone. -/
def manual_override_active (stored : Option ℚ) (now : ℚ) :
    Bool × Option ℚ × Option ℚ :=
  match stored with
  | none => (false, none, none)
  | some e =>
    if e ≠ 0 ∧ now < e then (true, some (e - now), some e)
    else if e ≠ 0 ∧ e ≤ now then (false, none, none)
    else (false, none, some e)

/-! ## Adaptive controller decision (simple_webui.py lines 699-735)

Python floats are modelled as exact rationals.  The humidity snapshot is
an association list entity -> optional value (dict.get of an absent key
and a stored None both give none); deltas are collected over the
configured sensor entities in order. -/

/-- dict.get on the humidity snapshot: none both for an absent entity
and for a stored None value. -/
def lookup_humidity : List (String × Option ℚ) → String → Option ℚ
  | [], _ => none
  | p :: rest, e => if p.1 = e then p.2 else lookup_humidity rest e

/-- The delta-collecting loop over SENSOR_ENTITIES: sensors with no
value are skipped, the rest contribute value - (target + offset). -/
def collect_deltas (m : List (String × Option ℚ))
    (targets offsets : String → ℚ) : List String → List ℚ
  | [] => []
  | e :: rest =>
    match lookup_humidity m e with
    | none => collect_deltas m targets offsets rest
    | some v => (v - (targets e + offsets e)) :: collect_deltas m targets offsets rest

/-- determine_auto_level, reduced to the level it returns (the reason
string is display-only).  The learning side effect performed on each
delta is modelled separately by update_learning_offsets; it does not
influence the deltas used here, which are computed before the update.
The aggressiveness string is taken already lower-cased, as the stored
setting is. -/
def determine_auto_level (entities : List String)
    (humidity_map : List (String × Option ℚ))
    (targets offsets : String → ℚ) (aggressiveness : String) : Nat :=
  if humidity_map.isEmpty then 2
  else
    match collect_deltas humidity_map targets offsets entities with
    | [] => 2
    | d :: ds =>
      let max_delta := ds.foldl max d
      let avg_delta := (d :: ds).sum / ((d :: ds).length : ℚ)
      let high_threshold : ℚ := if aggressiveness = "calm" then 8 else 6
      let medium_threshold : ℚ := if aggressiveness = "calm" then 4 else 3
      let low_threshold : ℚ := if aggressiveness = "aggressive" then -3 else -(3/2)
      if high_threshold ≤ max_delta then 4
      else if medium_threshold ≤ max_delta ∨ medium_threshold / 2 ≤ avg_delta then 3
      else if avg_delta ≤ low_threshold then 1
      else 2

/-! ## Learning offset updater (simple_webui.py lines 682-696) -/

/-- Python round to the nearest integer with ties to even (the float
round primitive, idealised over the rationals). -/
def round_half_even (q : ℚ) : Int :=
  if q - ⌊q⌋ < 1/2 then ⌊q⌋
  else if 1/2 < q - ⌊q⌋ then ⌊q⌋ + 1
  else if ⌊q⌋ % 2 = 0 then ⌊q⌋ else ⌊q⌋ + 1

/-- round(x, 3). -/
def round3 (x : ℚ) : ℚ := (round_half_even (x * 1000) : ℚ) / 1000

/-- deque(maxlen = w).append: append on the right, dropping from the
left whenever the length exceeds w. -/
def push_maxlen (w : Nat) (buf : List ℚ) (x : ℚ) : List ℚ :=
  let b := buf ++ [x]
  if w < b.length then b.drop (b.length - w) else b

/-- update_learning_offsets for one sensor: append the delta to the
rolling buffer; once the buffer is full, add rate times the buffer mean
to the offset, clamp to plus or minus max_offset, and store the result
rounded to 3 decimals.  Returns the new buffer and the new offset. -/
def update_learning_offsets (w : Nat) (rate max_offset : ℚ)
    (buf : List ℚ) (old : ℚ) (delta : ℚ) : List ℚ × ℚ :=
  let b := push_maxlen w buf delta
  if b.length < w then (b, old)
  else
    let avg := b.sum / (b.length : ℚ)
    let adjustment := rate * avg
    let new_val := max (-max_offset) (min max_offset (old + adjustment))
    (b, round3 new_val)

/-- Feed w consecutive deltas of +2.0 into a fresh sensor (empty buffer,
offset 0) with adapt_rate 0.1 and the given max_offset. -/
def feed_twos (w : Nat) (max_offset : ℚ) : List ℚ × ℚ :=
  (List.replicate w (2 : ℚ)).foldl
    (fun st d => update_learning_offsets w (1/10) max_offset st.1 st.2 d)
    ([], 0)

/-! ## Helper lemmas -/

/-- Running a command sequence only records last_command on the state:
the level, boost, inhibit and start-time fields pass through untouched
(the loop body updates them only after the whole sequence succeeds). -/
theorem run_steps_preserves (sendOk : Nat → Bool) :
    ∀ (steps : List SerialStep) (k : Nat) (st : DeviceState),
      (run_steps sendOk steps k st).st.current_level = st.current_level
      ∧ (run_steps sendOk steps k st).st.boost_active = st.boost_active
      ∧ (run_steps sendOk steps k st).st.boost_inhibit = st.boost_inhibit
      ∧ (run_steps sendOk steps k st).st.level_start_time = st.level_start_time
  | [], _, _ => by simp [run_steps]
  | s :: rest, k, st => by
    by_cases h : sendOk k
    · have ih := run_steps_preserves sendOk rest (k + 1)
        { st with last_command := some (s.addr, s.val) }
      simpa [run_steps, h] using ih
    · simp [run_steps, h]

/-- If the k-th send of the sequence is the first to fail, the run
reports failure and the issued commands are exactly the first k+1
steps: nothing past the failing step is sent. -/
theorem run_steps_first_fail (sendOk : Nat → Bool) :
    ∀ (steps : List SerialStep) (b k : Nat) (st : DeviceState),
      k < steps.length → sendOk (b + k) = false →
      (∀ j, j < k → sendOk (b + j) = true) →
      (run_steps sendOk steps b st).ok = false
      ∧ (run_steps sendOk steps b st).issued = steps.take (k + 1)
  | [], _, k, _, hk, _, _ => by simp at hk
  | s :: rest, b, 0, st, _, hfail, _ => by
    have hb : sendOk b = false := by simpa using hfail
    simp [run_steps, hb]
  | s :: rest, b, k + 1, st, hk, hfail, hfirst => by
    have hb : sendOk b = true := by simpa using hfirst 0 (Nat.succ_pos k)
    have hfail2 : sendOk (b + 1 + k) = false := by
      have : b + 1 + k = b + (k + 1) := by omega
      rw [this]; exact hfail
    have hfirst2 : ∀ j, j < k → sendOk (b + 1 + j) = true := by
      intro j hj
      have : b + 1 + j = b + (j + 1) := by omega
      rw [this]; exact hfirst (j + 1) (by omega)
    have ih := run_steps_first_fail sendOk rest (b + 1) k
      { st with last_command := some (s.addr, s.val) }
      (by simpa using hk) hfail2 hfirst2
    simp [run_steps, hb, ih.1, ih.2]

/-- The strategy table only has entries for levels 1 to 4. -/
theorem strategies_level_range (level : Nat) (steps : List SerialStep)
    (h : strategies level = some steps) :
    level = 1 ∨ level = 2 ∨ level = 3 ∨ level = 4 := by
  unfold strategies at h
  split_ifs at h with h1 h2 h3 h4
  · exact Or.inl h1
  · exact Or.inr (Or.inl h2)
  · exact Or.inr (Or.inr (Or.inl h3))
  · exact Or.inr (Or.inr (Or.inr h4))

/-- The invariant reads only current_level, boost_active and
boost_inhibit. -/
theorem InvB_congr (a b : DeviceState) (h1 : a.current_level = b.current_level)
    (h2 : a.boost_active = b.boost_active) (h3 : a.boost_inhibit = b.boost_inhibit) :
    InvB a = InvB b := by
  simp [InvB, level_okB, h1, h2, h3]

theorem WInvB_congr (a b : DeviceState) (h1 : a.current_level = b.current_level)
    (h2 : a.boost_active = b.boost_active) :
    WInvB a = WInvB b := by
  simp [WInvB, level_okB, h1, h2]

theorem apply_preserves_InvB (sendOk : Nat → Bool) (level now : Nat)
    (st : DeviceState) (h : InvB st = true) :
    InvB (apply_level_strategy sendOk level now st).st = true := by
  rcases hs : strategies level with _ | steps
  · simpa [apply_level_strategy, hs] using h
  · have hp := run_steps_preserves sendOk steps 0 st
    by_cases hr : (run_steps sendOk steps 0 st).ok
    · rcases strategies_level_range level steps hs with h1 | h1 | h1 | h1 <;>
        subst h1 <;> simp [apply_level_strategy, hs, hr, InvB, level_okB]
    · simp only [apply_level_strategy, hs, hr, Bool.false_eq_true, if_false]
      rw [InvB_congr _ st hp.1 hp.2.1 hp.2.2.1]
      exact h

theorem apply_preserves_WInvB (sendOk : Nat → Bool) (level now : Nat)
    (st : DeviceState) (h : WInvB st = true) :
    WInvB (apply_level_strategy sendOk level now st).st = true := by
  rcases hs : strategies level with _ | steps
  · simpa [apply_level_strategy, hs] using h
  · have hp := run_steps_preserves sendOk steps 0 st
    by_cases hr : (run_steps sendOk steps 0 st).ok
    · rcases strategies_level_range level steps hs with h1 | h1 | h1 | h1 <;>
        subst h1 <;> simp [apply_level_strategy, hs, hr, WInvB, level_okB]
    · simp only [apply_level_strategy, hs, hr, Bool.false_eq_true, if_false]
      rw [WInvB_congr _ st hp.1 hp.2.1]
      exact h

theorem off_preserves_InvB (sendOk : Nat → Bool) (st : DeviceState)
    (h : InvB st = true) :
    InvB (turn_off_all_levels sendOk st).st = true := by
  have hp := run_steps_preserves sendOk off_steps 0 st
  by_cases hr : (run_steps sendOk off_steps 0 st).ok
  · simp [turn_off_all_levels, hr, InvB, level_okB]
  · simp only [turn_off_all_levels, hr, Bool.false_eq_true, if_false]
    rw [InvB_congr _ st hp.1 hp.2.1 hp.2.2.1]
    exact h

theorem off_preserves_WInvB (sendOk : Nat → Bool) (st : DeviceState)
    (h : WInvB st = true) :
    WInvB (turn_off_all_levels sendOk st).st = true := by
  have hp := run_steps_preserves sendOk off_steps 0 st
  by_cases hr : (run_steps sendOk off_steps 0 st).ok
  · simp [turn_off_all_levels, hr, WInvB, level_okB]
  · simp only [turn_off_all_levels, hr, Bool.false_eq_true, if_false]
    rw [WInvB_congr _ st hp.1 hp.2.1]
    exact h

theorem toggle_preserves_WInvB (ok : Bool) (now : Nat) (st : DeviceState)
    (h : WInvB st = true) :
    WInvB (api_toggle_boost ok now st).2 = true := by
  cases ok with
  | false => simpa [api_toggle_boost] using h
  | true =>
    cases hb : st.boost_active with
    | true =>
      simp [WInvB, Bool.and_eq_true] at h
      simp [api_toggle_boost, hb, WInvB, level_okB, Bool.and_eq_true]
      simpa [level_okB] using h.1
    | false =>
      simp [api_toggle_boost, hb, WInvB, level_okB]

/-- As long as no attempt raises an exception, every call chain of
send_command_go ends in the fall-through success return. -/
theorem send_command_go_true (env : Nat → AttemptOutcome) (addr : String) :
    ∀ (remaining retry : Nat),
      (∀ i, i ≤ remaining → env (retry + i) ≠ AttemptOutcome.exn) →
      send_command_go env addr retry remaining = true := by
  intro remaining
  induction remaining with
  | zero =>
    intro retry h
    have h0 : env retry ≠ AttemptOutcome.exn := by simpa using h 0 (Nat.le_refl 0)
    rcases e : env retry with _ | _ | s
    · exact absurd e h0
    · simp [send_command_go, e]
    · simp [send_command_go, e]
  | succ r ih =>
    intro retry h
    have h0 : env retry ≠ AttemptOutcome.exn := by simpa using h 0 (by omega)
    have hsh : ∀ i, i ≤ r → env (retry + 1 + i) ≠ AttemptOutcome.exn := by
      intro i hi
      have he : retry + 1 + i = retry + (i + 1) := by omega
      rw [he]
      exact h (i + 1) (by omega)
    rcases e : env retry with _ | _ | s
    · exact absurd e h0
    · simp only [send_command_go, e]
      exact ih (retry + 1) hsh
    · simp only [send_command_go, e]
      split
      · exact ih (retry + 1) hsh
      · rfl

/-! ## Claim theorems -/

/-- C1 counterexample: the claim says that when all 3 attempts end in a
mismatched leading register token or in no response, send returns False.
In the code the third attempt falls through to the success return, so
send returns True both when every attempt is silent and when every
attempt echoes a mismatching register. -/
theorem C1_counterexample :
    send_command (fun _ => AttemptOutcome.silence) "151" = true
    ∧ send_command (fun _ => AttemptOutcome.resp "999xxxx") "151" = true := by
  constructor <;> decide

/-- C1 amended: send retries up to 2 extra times on mismatch or no
response, but exhausting the retry budget is reported as success:
whenever no attempt raises an I/O exception send returns True, and
False is returned only when an attempt raises (here: when the very
first attempt raises). -/
theorem C1_amended :
    (∀ (env : Nat → AttemptOutcome) (addr : String),
       env 0 ≠ AttemptOutcome.exn → env 1 ≠ AttemptOutcome.exn →
       env 2 ≠ AttemptOutcome.exn → send_command env addr = true)
    ∧ (∀ (env : Nat → AttemptOutcome) (addr : String),
       env 0 = AttemptOutcome.exn → send_command env addr = false) := by
  constructor
  · intro env addr h0 h1 h2
    apply send_command_go_true
    intro i hi
    interval_cases i
    · simpa using h0
    · simpa using h1
    · simpa using h2
  · intro env addr h
    simp [send_command, send_command_go, h]

theorem C1_amended_witness :
    send_command (fun _ => AttemptOutcome.silence) "326" = true
    ∧ send_command (fun _ => AttemptOutcome.exn) "326" = false := by
  constructor
  · exact C1_amended.1 (fun _ => AttemptOutcome.silence) "326"
      (by decide) (by decide) (by decide)
  · exact C1_amended.2 (fun _ => AttemptOutcome.exn) "326" rfl

/-- C2 counterexample: from the initial state, a successful
apply_level_strategy(1) reaches an invariant-satisfying state with
boost_inhibit on; the boost toggle then succeeds, sets current_level to
4 and boost_active, but leaves boost_inhibit untouched, so the reached
state has boost_inhibit true at level 4, violating the invariant. -/
theorem C2_counterexample :
    InvB (apply_level_strategy (fun _ => true) 1 0 init_state).st = true
    ∧ (api_toggle_boost true 0
        (apply_level_strategy (fun _ => true) 1 0 init_state).st).1 = true
    ∧ (api_toggle_boost true 0
        (apply_level_strategy (fun _ => true) 1 0 init_state).st).2.boost_inhibit = true
    ∧ (api_toggle_boost true 0
        (apply_level_strategy (fun _ => true) 1 0 init_state).st).2.current_level = some 4
    ∧ InvB (api_toggle_boost true 0
        (apply_level_strategy (fun _ => true) 1 0 init_state).st).2 = false := by
  refine ⟨?_, ?_, ?_, ?_, ?_⟩ <;> decide

/-- C2 amended: the full invariant (current_level in {None,1,2,3,4},
boost_inhibit only at levels 1-2, boost_active only at level 4) is
preserved by apply_level_strategy and turn_off_all_levels; the boost
toggle only preserves the weaker invariant that drops the
boost_inhibit clause (which all three operations preserve, so it holds
in every reachable state), because it never touches boost_inhibit. -/
theorem C2_amended :
    (∀ (sendOk : Nat → Bool) (level now : Nat) (st : DeviceState),
       InvB st = true → InvB (apply_level_strategy sendOk level now st).st = true)
    ∧ (∀ (sendOk : Nat → Bool) (st : DeviceState),
       InvB st = true → InvB (turn_off_all_levels sendOk st).st = true)
    ∧ (∀ (sendOk : Nat → Bool) (level now : Nat) (st : DeviceState),
       WInvB st = true → WInvB (apply_level_strategy sendOk level now st).st = true)
    ∧ (∀ (sendOk : Nat → Bool) (st : DeviceState),
       WInvB st = true → WInvB (turn_off_all_levels sendOk st).st = true)
    ∧ (∀ (ok : Bool) (now : Nat) (st : DeviceState),
       WInvB st = true → WInvB (api_toggle_boost ok now st).2 = true) :=
  ⟨apply_preserves_InvB, off_preserves_InvB, apply_preserves_WInvB,
   off_preserves_WInvB, toggle_preserves_WInvB⟩

theorem C2_amended_witness :
    InvB init_state = true
    ∧ InvB (apply_level_strategy (fun _ => true) 2 0 init_state).st = true
    ∧ WInvB (api_toggle_boost true 0 init_state).2 = true := by
  refine ⟨by decide,
    C2_amended.1 (fun _ => true) 2 0 init_state (by decide),
    C2_amended.2.2.2.2 true 0 init_state (by decide)⟩

/-- C3 counterexample: the encoded write frame for address 151 and
value 1 is 12 characters long, not 11 as the claim states (3-digit
address + the two characters 0+ + 5 digits + CRLF add up to 12). -/
theorem C3_counterexample :
    (encode_write_frame "151" 1).length = 12
    ∧ (encode_write_frame "151" 1).length ≠ 11 := by
  constructor <;> decide

/-- C3 amended: for every 3-digit address and every value in 0..99999
the encoded write frame is the 3-digit address, the two characters 0+,
the 5-digit zero-padded value and CRLF, and is exactly 12 characters
long. -/
theorem C3_amended (addr : String) (v : Nat) (haddr : addr.length = 3)
    (hv : v ≤ 99999) :
    encode_write_frame addr v = addr ++ "0+" ++ format05 v ++ "\r\n"
    ∧ (format05 v).length = 5
    ∧ (encode_write_frame addr v).length = 12 := by
  have h5 : (format05 v).length = 5 := by
    unfold format05
    rw [if_pos (by omega)]
    rfl
  refine ⟨rfl, h5, ?_⟩
  unfold encode_write_frame
  rw [String.length_append, String.length_append, String.length_append, haddr, h5]
  rfl

theorem C3_amended_witness :
    ("151" : String).length = 3 ∧ (7 : Nat) ≤ 99999
    ∧ (encode_write_frame "151" 7).length = 12 :=
  ⟨by decide, by decide, (C3_amended "151" 7 (by decide) (by decide)).2.2⟩

/-- C4: sequence-fault atomicity.  If the k-th send of the strategy
for any level (or of the turn-off sequence) is the first to fail, the
operation returns False, exactly the first k+1 steps were issued
(nothing past the failing step), and current_level, boost_active,
boost_inhibit and level_start_time are unchanged. -/
theorem C4_atomic_abort :
    (∀ (sendOk : Nat → Bool) (level now : Nat) (st : DeviceState)
       (steps : List SerialStep) (k : Nat),
       strategies level = some steps → k < steps.length →
       sendOk k = false → (∀ j, j < k → sendOk j = true) →
       (apply_level_strategy sendOk level now st).ok = false
       ∧ (apply_level_strategy sendOk level now st).st.current_level = st.current_level
       ∧ (apply_level_strategy sendOk level now st).st.boost_active = st.boost_active
       ∧ (apply_level_strategy sendOk level now st).st.boost_inhibit = st.boost_inhibit
       ∧ (apply_level_strategy sendOk level now st).st.level_start_time = st.level_start_time
       ∧ (apply_level_strategy sendOk level now st).issued = steps.take (k + 1))
    ∧ (∀ (sendOk : Nat → Bool) (st : DeviceState) (k : Nat),
       k < off_steps.length →
       sendOk k = false → (∀ j, j < k → sendOk j = true) →
       (turn_off_all_levels sendOk st).ok = false
       ∧ (turn_off_all_levels sendOk st).st.current_level = st.current_level
       ∧ (turn_off_all_levels sendOk st).st.boost_active = st.boost_active
       ∧ (turn_off_all_levels sendOk st).st.boost_inhibit = st.boost_inhibit
       ∧ (turn_off_all_levels sendOk st).st.level_start_time = st.level_start_time
       ∧ (turn_off_all_levels sendOk st).issued = off_steps.take (k + 1)) := by
  constructor
  · intro sendOk level now st steps k hs hk hfail hfirst
    have hf := run_steps_first_fail sendOk steps 0 k st hk
      (by simpa using hfail) (by intro j hj; simpa using hfirst j hj)
    have hp := run_steps_preserves sendOk steps 0 st
    simp only [apply_level_strategy, hs, hf.1, Bool.false_eq_true, if_false]
    exact ⟨by trivial, hp.1, hp.2.1, hp.2.2.1, hp.2.2.2, hf.2⟩
  · intro sendOk st k hk hfail hfirst
    have hf := run_steps_first_fail sendOk off_steps 0 k st hk
      (by simpa using hfail) (by intro j hj; simpa using hfirst j hj)
    have hp := run_steps_preserves sendOk off_steps 0 st
    simp only [turn_off_all_levels, hf.1, Bool.false_eq_true, if_false]
    exact ⟨by trivial, hp.1, hp.2.1, hp.2.2.1, hp.2.2.2, hf.2⟩

theorem C4_atomic_abort_witness :
    (apply_level_strategy (fun _ => false) 1 0 init_state).ok = false
    ∧ (apply_level_strategy (fun _ => false) 1 0 init_state).st.current_level
        = init_state.current_level
    ∧ (apply_level_strategy (fun _ => false) 1 0 init_state).issued
        = ((strategies 1).getD []).take 1
    ∧ (turn_off_all_levels (fun _ => false) init_state).ok = false := by
  have ha := C4_atomic_abort.1 (fun _ => false) 1 0 init_state
    ((strategies 1).getD []) 0 (by rfl) (by decide) rfl
    (fun j hj => absurd hj (Nat.not_lt_zero j))
  have hb := C4_atomic_abort.2 (fun _ => false) init_state 0 (by decide) rfl
    (fun j hj => absurd hj (Nat.not_lt_zero j))
  exact ⟨ha.1, ha.2.1, ha.2.2.2.2.2, hb.1⟩

/-- C5: after a successful apply_level_strategy(L), current_level = L,
boost_active holds exactly when L = 4, and boost_inhibit holds exactly
when L is 1 or 2. -/
theorem C5_success_postcondition (sendOk : Nat → Bool) (level now : Nat)
    (st : DeviceState)
    (h : (apply_level_strategy sendOk level now st).ok = true) :
    (apply_level_strategy sendOk level now st).st.current_level = some level
    ∧ ((apply_level_strategy sendOk level now st).st.boost_active = true ↔ level = 4)
    ∧ ((apply_level_strategy sendOk level now st).st.boost_inhibit = true
        ↔ (level = 1 ∨ level = 2)) := by
  rcases hs : strategies level with _ | steps
  · simp [apply_level_strategy, hs] at h
  · by_cases hr : (run_steps sendOk steps 0 st).ok
    · simp [apply_level_strategy, hs, hr, beq_iff_eq]
    · simp [apply_level_strategy, hs, hr] at h

theorem C5_success_postcondition_witness :
    (apply_level_strategy (fun _ => true) 4 0 init_state).ok = true
    ∧ (apply_level_strategy (fun _ => true) 4 0 init_state).st.current_level = some 4
    ∧ ((apply_level_strategy (fun _ => true) 4 0 init_state).st.boost_active = true
        ↔ (4 : Nat) = 4) := by
  have h := C5_success_postcondition (fun _ => true) 4 0 init_state (by decide)
  exact ⟨by decide, h.1, h.2.1⟩

/-- Lexicographic time order: a ≤ b excludes b < a. -/
theorem time_le_asymm (a b : Nat × Nat) (h : time_le a b = true) :
    time_lt b a = false := by
  rcases Bool.eq_false_or_eq_true (time_lt b a) with ht | hf
  case inr => exact hf
  case inl =>
    exfalso
    simp only [time_le, Bool.or_eq_true, Bool.and_eq_true, decide_eq_true_eq] at h
    simp only [time_lt, Bool.or_eq_true, Bool.and_eq_true, decide_eq_true_eq] at ht
    omega

/-- C6: night-quiet capping with the overnight 21:00 to 08:00 window and
max_level 2: a request for level 4 at 23:00 is capped to 2 (capped =
true); the same request at 12:00 passes through as 4 (capped = false). -/
theorem C6_night_quiet_cases :
    enforce_night_quiet true "21:00" "08:00" 2 4 (23, 0) = some (2, true)
    ∧ enforce_night_quiet true "21:00" "08:00" 2 4 (12, 0) = some (4, false) := by
  constructor <;> decide

/-- C10: when the configured start time equals the end time the quiet
window is empty: for every wall-clock time membership is false even
with night quiet enabled, so enforce_night_quiet never caps. -/
theorem C10_degenerate_window (s : String) (t : Nat × Nat)
    (maxLevel level : Nat) (h : (parse_time s).isSome) :
    is_within_quiet_hours true s s t = some false
    ∧ enforce_night_quiet true s s maxLevel level t = some (level, false) := by
  obtain ⟨p, hp⟩ := Option.isSome_iff_exists.mp h
  have hle : time_le p p = true := by simp [time_le]
  have hone : (time_le p t && time_lt t p) = false := by
    rcases Bool.eq_false_or_eq_true (time_le p t) with ht | hf
    case inr => simp [hf]
    case inl => simp [ht, time_le_asymm p t ht]
  constructor
  · simp [is_within_quiet_hours, hp, hle, hone]
  · simp [enforce_night_quiet, is_within_quiet_hours, hp, hle, hone]

theorem C10_degenerate_window_witness :
    (parse_time "21:00").isSome = true
    ∧ is_within_quiet_hours true "21:00" "21:00" (23, 0) = some false
    ∧ enforce_night_quiet true "21:00" "21:00" 2 4 (23, 0) = some (4, false) := by
  have h := C10_degenerate_window "21:00" (23, 0) 2 4 (by decide)
  exact ⟨by decide, h.1, h.2⟩

/-- C7: auto-decision thresholds for aggressiveness balanced (high 6,
medium 3, low -1.5, medium/2 = 1.5): deltas {7, -6} give max_delta 7
with avg_delta 0.5 below the average override, so level 4; a single
delta 5 gives level 3; a single delta -2 (max below medium) gives
level 1; a single delta 0 hits no threshold and holds level 2. -/
theorem C7_auto_level_thresholds :
    determine_auto_level ["a", "b"] [("a", some 62), ("b", some 49)]
      (fun _ => 55) (fun _ => 0) "balanced" = 4
    ∧ determine_auto_level ["a"] [("a", some 60)]
      (fun _ => 55) (fun _ => 0) "balanced" = 3
    ∧ determine_auto_level ["a"] [("a", some 53)]
      (fun _ => 55) (fun _ => 0) "balanced" = 1
    ∧ determine_auto_level ["a"] [("a", some 55)]
      (fun _ => 55) (fun _ => 0) "balanced" = 2 := by
  refine ⟨?_, ?_, ?_, ?_⟩ <;>
    norm_num [determine_auto_level, collect_deltas, lookup_humidity,
      show (("balanced" : String) = "calm") = False from by decide,
      show (("balanced" : String) = "aggressive") = False from by decide,
      show (("a" : String) = "b") = False from by decide]

/-- C9: after scheduling an override of m minutes at time t0 the stored
expiry is strictly positive; every query strictly before the expiry is
active with a strictly positive remaining time and keeps the expiry;
the first query at or after the expiry is inactive and clears the
stored expiry; once cleared every further query is inactive (the store
stays empty). -/
theorem C9_manual_override_timer (m : Int) (t0 t1 t2 : ℚ) (ht0 : 0 ≤ t0) :
    (t1 < schedule_manual_override m t0 →
       manual_override_active (some (schedule_manual_override m t0)) t1
         = (true, some (schedule_manual_override m t0 - t1),
            some (schedule_manual_override m t0))
       ∧ 0 < schedule_manual_override m t0 - t1)
    ∧ (schedule_manual_override m t0 ≤ t1 →
       manual_override_active (some (schedule_manual_override m t0)) t1
         = (false, none, none))
    ∧ manual_override_active none t2 = (false, none, none) := by
  have h1 : (1 : ℚ) ≤ ((max 1 m : Int) : ℚ) := by
    exact_mod_cast le_max_left 1 m
  have hpos : 0 < schedule_manual_override m t0 := by
    unfold schedule_manual_override
    nlinarith
  have hne : schedule_manual_override m t0 ≠ 0 := ne_of_gt hpos
  refine ⟨?_, ?_, ?_⟩
  · intro h
    constructor
    · simp [manual_override_active, hne, h]
    · linarith
  · intro h
    simp [manual_override_active, hne, h, not_lt.mpr h]
  · rfl

theorem C9_manual_override_timer_witness :
    schedule_manual_override 10 0 = 600
    ∧ manual_override_active (some 600) 300 = (true, some 300, some 600)
    ∧ manual_override_active (some 600) 600 = (false, none, none)
    ∧ manual_override_active none 0 = (false, none, none) := by
  have hm : schedule_manual_override 10 0 = 600 := by
    unfold schedule_manual_override
    have hmx : (max 1 10 : Int) = 10 := by omega
    rw [hmx]
    norm_num
  have h1 := C9_manual_override_timer 10 0 300 0 le_rfl
  have h2 := C9_manual_override_timer 10 0 600 0 le_rfl
  rw [hm] at h1 h2
  have ha := (h1.1 (by norm_num)).1
  have hb := h2.2.1 le_rfl
  refine ⟨hm, ?_, hb, h1.2.2⟩
  have hc : (600 : ℚ) - 300 = 300 := by norm_num
  rw [hc] at ha
  exact ha

/-- round_half_even is within a half of its argument. -/
theorem round_half_even_bounds (q : ℚ) :
    q - 1/2 ≤ (round_half_even q : ℚ) ∧ (round_half_even q : ℚ) ≤ q + 1/2 := by
  unfold round_half_even
  have h1 : (⌊q⌋ : ℚ) ≤ q := Int.floor_le q
  have h2 : q < ⌊q⌋ + 1 := Int.lt_floor_add_one q
  split_ifs with hf1 hf2 hpar
  · constructor <;> linarith
  · push_cast
    constructor <;> linarith
  · constructor <;> linarith
  · push_cast
    constructor <;> linarith

theorem round_half_even_le (q : ℚ) (k : Int) (h : q ≤ k) :
    round_half_even q ≤ k := by
  have hb := (round_half_even_bounds q).2
  have hq : (round_half_even q : ℚ) < (k : ℚ) + 1 := by linarith
  have hk : round_half_even q < k + 1 := by exact_mod_cast hq
  omega

theorem round_half_even_ge (q : ℚ) (k : Int) (h : (k : ℚ) ≤ q) :
    k ≤ round_half_even q := by
  have hb := (round_half_even_bounds q).1
  have hq : (k : ℚ) - 1 < (round_half_even q : ℚ) := by linarith
  have hk : k - 1 < round_half_even q := by exact_mod_cast hq
  omega

/-- Rounding to 3 decimals keeps any bound that is itself a multiple of
0.001. -/
theorem round3_abs_le (x : ℚ) (k : Int) (h : |x| ≤ (k : ℚ) / 1000) :
    |round3 x| ≤ (k : ℚ) / 1000 := by
  rcases abs_le.mp h with ⟨hl, hr⟩
  have hx1 : x * 1000 ≤ (k : ℚ) := by linarith
  have hr3 := round_half_even_le (x * 1000) k hx1
  have hl3 := round_half_even_ge (x * 1000) (-k) (by push_cast; linarith)
  have hrc : (round_half_even (x * 1000) : ℚ) ≤ (k : ℚ) := by exact_mod_cast hr3
  have hlc : -(k : ℚ) ≤ (round_half_even (x * 1000) : ℚ) := by exact_mod_cast hl3
  unfold round3
  rw [abs_le]
  constructor <;> linarith

/-- Multiples of 0.001 are fixed points of round3. -/
theorem round3_millesimal (k : Int) : round3 ((k : ℚ) / 1000) = (k : ℚ) / 1000 := by
  unfold round3 round_half_even
  have hmul : ((k : ℚ) / 1000) * 1000 = (k : ℚ) := by field_simp
  rw [hmul, Int.floor_intCast]
  norm_num

/-- Everything in the deque after an append was already in the deque or
is the appended element. -/
theorem push_maxlen_subset (w : Nat) (buf : List ℚ) (x y : ℚ)
    (hy : y ∈ push_maxlen w buf x) : y ∈ buf ++ [x] := by
  unfold push_maxlen at hy
  dsimp only at hy
  split at hy
  · exact List.drop_subset _ _ hy
  · exact hy

/-- A not-yet-full update only appends to the buffer. -/
theorem update_offset_keeps (w : Nat) (rate M old delta : ℚ) (buf : List ℚ)
    (hb : (push_maxlen w buf delta).length < w) :
    (update_learning_offsets w rate M buf old delta).2 = old := by
  unfold update_learning_offsets
  dsimp only
  rw [if_pos hb]

/-- A full-buffer update stores the rounded clamp of old + rate * mean. -/
theorem update_offset_fires (w : Nat) (rate M old delta : ℚ) (buf : List ℚ)
    (hb : ¬ (push_maxlen w buf delta).length < w) :
    (update_learning_offsets w rate M buf old delta).2 =
      round3 (max (-M) (min M (old + rate *
        ((push_maxlen w buf delta).sum / ((push_maxlen w buf delta).length : ℚ))))) := by
  unfold update_learning_offsets
  dsimp only
  rw [if_neg hb]

theorem push_maxlen_not_over (w : Nat) (buf : List ℚ) (x : ℚ)
    (h : buf.length + 1 ≤ w) : push_maxlen w buf x = buf ++ [x] := by
  unfold push_maxlen
  dsimp only
  rw [if_neg (by simp; omega)]

theorem update_not_full (w : Nat) (rate M old delta : ℚ) (buf : List ℚ)
    (h : buf.length + 1 < w) :
    update_learning_offsets w rate M buf old delta = (buf ++ [delta], old) := by
  unfold update_learning_offsets
  dsimp only
  rw [push_maxlen_not_over w buf delta (by omega)]
  rw [if_pos (by simp; omega)]

theorem update_full (w : Nat) (rate M old delta : ℚ) (buf : List ℚ)
    (h : buf.length + 1 = w) :
    update_learning_offsets w rate M buf old delta =
      (buf ++ [delta],
       round3 (max (-M) (min M (old + rate *
         ((buf ++ [delta]).sum / (((buf ++ [delta]).length : ℚ))))))) := by
  unfold update_learning_offsets
  dsimp only
  rw [push_maxlen_not_over w buf delta (by omega)]
  rw [if_neg (by simp; omega)]

/-- The first w - 1 feeds of delta 2 only fill the buffer and leave the
offset at 0. -/
theorem feed_twos_filling (M : ℚ) (w : Nat) :
    ∀ j, j < w →
      (List.replicate j (2:ℚ)).foldl
        (fun st d => update_learning_offsets w (1/10) M st.1 st.2 d) ([], 0)
        = (List.replicate j (2:ℚ), 0) := by
  intro j
  induction j with
  | zero => intro _; simp
  | succ n ih =>
    intro hj
    rw [List.replicate_succ' n (2:ℚ), List.foldl_append, ih (by omega)]
    simp only [List.foldl_cons, List.foldl_nil]
    rw [update_not_full w (1/10) M 0 2 (List.replicate n 2)
      (by simp [List.length_replicate]; omega)]

/-- Feeding w deltas of +2.0 with adapt_rate 0.1 from offset 0 yields
offset exactly 0.2, provided max_offset is at least 0.2. -/
theorem feed_twos_result (w : Nat) (M : ℚ) (hw : 1 ≤ w) (hM : (1/5 : ℚ) ≤ M) :
    (feed_twos w M).2 = 1/5 := by
  obtain ⟨n, rfl⟩ : ∃ n, w = n + 1 := ⟨w - 1, by omega⟩
  unfold feed_twos
  rw [List.replicate_succ' n (2:ℚ), List.foldl_append,
    feed_twos_filling M (n + 1) n (by omega)]
  simp only [List.foldl_cons, List.foldl_nil]
  rw [update_full (n + 1) (1/10) M 0 2 (List.replicate n 2) (by simp)]
  dsimp only
  have hsum : ((List.replicate n (2:ℚ) ++ [2]).sum) = 2 * ((n : ℚ) + 1) := by
    simp [List.sum_replicate, nsmul_eq_mul]
    ring
  have hlen : (((List.replicate n (2:ℚ) ++ [2]).length : ℚ)) = (n : ℚ) + 1 := by
    simp [List.length_append, List.length_replicate]
  rw [hsum, hlen]
  have hne : ((n : ℚ) + 1) ≠ 0 := by positivity
  have hdiv : (2 * ((n : ℚ) + 1)) / ((n : ℚ) + 1) = 2 := by field_simp
  rw [hdiv]
  have harg : (0 : ℚ) + 1/10 * 2 = 1/5 := by norm_num
  rw [harg, min_eq_right hM, max_eq_right (by linarith)]
  norm_num [round3, round_half_even]

/-- A single update keeps the offset magnitude within a millesimal
max_offset. -/
theorem update_offset_abs_le (w : Nat) (rate M old delta : ℚ) (buf : List ℚ)
    (k : Int) (hM : M = (k : ℚ) / 1000) (hold : |old| ≤ M) :
    |(update_learning_offsets w rate M buf old delta).2| ≤ M := by
  by_cases hb : (push_maxlen w buf delta).length < w
  · rw [update_offset_keeps w rate M old delta buf hb]
    exact hold
  · rw [update_offset_fires w rate M old delta buf hb]
    have hM0 : 0 ≤ M := le_trans (abs_nonneg old) hold
    have hnv : |max (-M) (min M (old + rate *
        ((push_maxlen w buf delta).sum / ((push_maxlen w buf delta).length : ℚ))))| ≤ M := by
      rw [abs_le]
      exact ⟨le_max_left _ _, max_le (by linarith) (min_le_left _ _)⟩
    subst hM
    exact round3_abs_le _ k hnv

/-- An offset saturated at a millesimal max_offset stays there under
any further update whose buffer holds only nonnegative deltas. -/
theorem update_offset_saturated (w : Nat) (rate M delta : ℚ) (buf : List ℚ)
    (k : Int) (hM : M = (k : ℚ) / 1000) (hM0 : 0 ≤ M) (hrate : 0 ≤ rate)
    (hdelta : 0 ≤ delta) (hbuf : ∀ x ∈ buf, 0 ≤ x) :
    (update_learning_offsets w rate M buf M delta).2 = M := by
  by_cases hb : (push_maxlen w buf delta).length < w
  · rw [update_offset_keeps w rate M M delta buf hb]
  · rw [update_offset_fires w rate M M delta buf hb]
    have hsum : 0 ≤ (push_maxlen w buf delta).sum := by
      apply List.sum_nonneg
      intro y hy
      rcases List.mem_append.mp (push_maxlen_subset w buf delta y hy) with h | h
      · exact hbuf y h
      · rw [List.mem_singleton.mp h]
        exact hdelta
    have havg : 0 ≤ (push_maxlen w buf delta).sum /
        ((push_maxlen w buf delta).length : ℚ) :=
      div_nonneg hsum (Nat.cast_nonneg _)
    have hadj : 0 ≤ rate * ((push_maxlen w buf delta).sum /
        ((push_maxlen w buf delta).length : ℚ)) := mul_nonneg hrate havg
    rw [min_eq_left (by linarith), max_eq_right (by linarith)]
    subst hM
    exact round3_millesimal k

/-- C8 counterexample, two parts.  (a) Against "the resulting offset
magnitude never exceeds max_offset": with sample_window 1, adapt_rate 1
and max_offset 0.0006, a first delta of 0.0006 is clamped to 0.0006 but
the final round to 3 decimals stores 0.001, which exceeds max_offset.
(b) Against "once saturated at max_offset, further positive-delta
updates leave it at max_offset": with sample_window 2, adapt_rate 4 and
max_offset 8, feeding deltas 10 then -5 saturates the offset at 8 while
the buffer holds [10, -5]; a further positive delta +1 evicts the 10,
leaving buffer mean (-5 + 1) / 2 = -2 and adjustment -8, so the stored
offset drops from 8 to 0: the adjustment follows the buffer mean, not
the latest delta. -/
theorem C8_counterexample :
    (update_learning_offsets 1 1 (6/10000) [] 0 (6/10000)).2 = 1/1000
    ∧ ((6 : ℚ)/10000 < 1/1000)
    ∧ update_learning_offsets 2 4 8 [] 0 10 = ([10], 0)
    ∧ update_learning_offsets 2 4 8 [10] 0 (-5) = ([10, -5], 8)
    ∧ (update_learning_offsets 2 4 8 [10, -5] 8 1).2 = 0 := by
  refine ⟨?_, ?_, ?_, ?_, ?_⟩ <;>
    norm_num [update_learning_offsets, push_maxlen, round3, round_half_even]

/-- C8 amended: feeding sample_window deltas of +2.0 with adapt_rate
0.1 from offset 0 raises the offset by exactly 0.2 whenever max_offset
is at least 0.2; the stored offset magnitude stays within max_offset
whenever max_offset is a multiple of 0.001 (the final 3-decimal round
can otherwise push it past max_offset, by less than 0.0005); and an
offset saturated at such a max_offset stays there under a further
update when adapt_rate is nonnegative and the new delta together with
every delta still held in the buffer is nonnegative.  The buffer
condition is necessary: the adjustment follows the buffer mean, so a
single positive delta with a negative delta still buffered can lower a
saturated offset (counterexample part (b)). -/
theorem C8_amended :
    (∀ (w : Nat) (M : ℚ), 1 ≤ w → (1/5 : ℚ) ≤ M → (feed_twos w M).2 = 1/5)
    ∧ (∀ (w : Nat) (rate M old delta : ℚ) (buf : List ℚ) (k : Int),
        M = (k : ℚ) / 1000 → |old| ≤ M →
        |(update_learning_offsets w rate M buf old delta).2| ≤ M)
    ∧ (∀ (w : Nat) (rate M delta : ℚ) (buf : List ℚ) (k : Int),
        M = (k : ℚ) / 1000 → 0 ≤ M → 0 ≤ rate → 0 ≤ delta →
        (∀ x ∈ buf, 0 ≤ x) →
        (update_learning_offsets w rate M buf M delta).2 = M) :=
  ⟨feed_twos_result,
   fun w rate M old delta buf k hM hold =>
     update_offset_abs_le w rate M old delta buf k hM hold,
   fun w rate M delta buf k hM hM0 hrate hdelta hbuf =>
     update_offset_saturated w rate M delta buf k hM hM0 hrate hdelta hbuf⟩

theorem C8_amended_witness :
    (feed_twos 12 8).2 = 1/5
    ∧ |(update_learning_offsets 3 (1/2) 8 [] 0 5).2| ≤ 8
    ∧ (update_learning_offsets 1 (1/10) 8 [] 8 2).2 = 8 := by
  refine ⟨C8_amended.1 12 8 (by norm_num) (by norm_num), ?_, ?_⟩
  · have h := C8_amended.2.1 3 (1/2) 8 0 5 [] 8000 (by norm_num) (by norm_num)
    exact_mod_cast h
  · have h := C8_amended.2.2 1 (1/10) 8 2 [] 8000 (by norm_num) (by norm_num)
      (by norm_num) (by norm_num) (by intro x hx; simp at hx)
    exact_mod_cast h

end Titon
